import Mathlib

/-!
Shallow embedding of `src/ESP32_BLE_EncoderControl.ino` (single-encoder
variant): an ESP32 sketch that turns a quadrature rotary encoder plus its
push-button into BLE keyboard events, with interrupt-driven decoding, a
four-state button debouncer and a connection-state machine.

Modelling notes:
- `millis()` timestamps are modelled as monotone `Nat` values.  The C code
  subtracts `unsigned long`s; for monotone timestamps within one 32-bit wrap
  period (49.7 days) — the regime of every property considered here —
  unsigned subtraction coincides with truncated `Nat` subtraction, which is
  what the embedding uses.
- `encoderPos` is a C `int`; it is modelled as `Int` (the properties below
  involve far fewer than 2^31 detents, so overflow is not in play).
- GPIO levels are `Bool` (`HIGH = true`, `LOW = false`).  Each interrupt or
  loop invocation receives the pin levels it reads as explicit arguments.
- Interrupt handlers and one whole `loop()` body are each treated as atomic
  steps; a run of the system is a list of such events.  The several
  `millis()` calls inside one loop iteration are identified with the tick's
  single `now` argument (they differ only by microseconds in the code).
- Serial printing, the WS2812 status LED and the `delay(...)` calls have no
  bearing on the claims and are not part of the state; key emission
  (`bleKeyboard.write`) is modelled as the list of keys a step outputs.
-/

namespace EncoderControl

/-- `enum ConnectionState` from the sketch. -/
inductive ConnectionState where
  | DISCONNECTED
  | CONNECTING
  | CONNECTED
deriving DecidableEq, Repr

/-- `enum ButtonState` from the sketch. -/
inductive ButtonState where
  | BUTTON_UP
  | BUTTON_DEBOUNCING_DOWN
  | BUTTON_DOWN
  | BUTTON_DEBOUNCING_UP
deriving DecidableEq, Repr

/-- The key codes the sketch ever writes to the BLE keyboard. -/
inductive Key where
  | KEY_RIGHT_ARROW
  | KEY_LEFT_ARROW
  | KEY_RETURN
deriving DecidableEq, Repr

/-- `#define RECONNECT_DELAY 5000` (ms). -/
def RECONNECT_DELAY : Nat := 5000

/-- `const unsigned long encoderDebounceTime = 5` (ms). -/
def encoderDebounceTime : Nat := 5

/-- `const unsigned long buttonDebounceTime = 50` (ms). -/
def buttonDebounceTime : Nat := 50

/-- Arduino `LOW` digital level. -/
def LOW : Bool := false

/-- Arduino `HIGH` digital level. -/
def HIGH : Bool := true

/-- The decoder state touched by `encoderISR`: the global `encoderPos` and
`lastEncoderEvent`, and the `static uint8_t old_AB` local to the ISR. -/
structure EncState where
  encoderPos : Int
  lastEncoderEvent : Nat
  old_AB : Nat
deriving DecidableEq, Repr

/-- `uint8_t current_AB = (pinA << 1) | pinB;`. -/
def abOf (pinA pinB : Bool) : Nat := (cond pinA 2 0) + (cond pinB 1 0)

/-- The clockwise adjacency test of `encoderISR` (first `if`):
`00→01`, `01→11`, `11→10`, `10→00`. -/
def isCW (old new : Nat) : Bool :=
  (old == 0 && new == 1) || (old == 1 && new == 3) ||
  (old == 3 && new == 2) || (old == 2 && new == 0)

/-- The counter-clockwise adjacency test of `encoderISR` (`else if`):
`00→10`, `10→11`, `11→01`, `01→00`. -/
def isCCW (old new : Nat) : Bool :=
  (old == 0 && new == 2) || (old == 2 && new == 3) ||
  (old == 3 && new == 1) || (old == 1 && new == 0)

/-- `void IRAM_ATTR encoderISR()`: debounce early-return, Gray-code direction
test, then `old_AB = current_AB` on every path that passes the debounce
check (including the illegal-transition path, which falls through both
direction tests without touching `encoderPos`/`lastEncoderEvent`). -/
def encoderISR (e : EncState) (now : Nat) (pinA pinB : Bool) : EncState :=
  let current_AB := abOf pinA pinB
  if now - e.lastEncoderEvent < encoderDebounceTime then
    e
  else if isCW e.old_AB current_AB then
    { encoderPos := e.encoderPos + 1, lastEncoderEvent := now, old_AB := current_AB }
  else if isCCW e.old_AB current_AB then
    { encoderPos := e.encoderPos - 1, lastEncoderEvent := now, old_AB := current_AB }
  else
    { e with old_AB := current_AB }

/-- Replay a list of `(now, pinA, pinB)` edge interrupts against a decoder. -/
def runEnc (e : EncState) : List (Nat × Bool × Bool) → EncState
  | [] => e
  | (t, a, b) :: rest => runEnc (encoderISR e t a b) rest

/-- The whole mutable state of the sketch: connection management globals,
decoder state, the dispatcher's `lastReportedPos`, and the button machine. -/
structure SysState where
  connectionState : ConnectionState
  wasConnected : Bool
  lastConnectionAttempt : Nat
  enc : EncState
  lastReportedPos : Int
  buttonState : ButtonState
  buttonStateChangeTime : Nat
  buttonEventProcessed : Bool
deriving DecidableEq, Repr

/-- First block of `void updateConnectionState()`: edge-detect the polled
link status (`isConnected`/`wasConnected`). -/
def detectLinkChange (s : SysState) (isConnected : Bool) (now : Nat) : SysState :=
  if isConnected && !s.wasConnected then
    { s with connectionState := .CONNECTED, wasConnected := true }
  else if !isConnected && s.wasConnected then
    { s with connectionState := .DISCONNECTED, wasConnected := false,
             lastConnectionAttempt := now }
  else s

/-- Second block of `void updateConnectionState()`: the reconnection retry
clock, reading the state the first block may just have updated. -/
def retryClock (s : SysState) (isConnected : Bool) (now : Nat) : SysState :=
  if s.connectionState = .DISCONNECTED then
    if now - s.lastConnectionAttempt > RECONNECT_DELAY then
      { s with connectionState := .CONNECTING, lastConnectionAttempt := now }
    else s
  else if s.connectionState = .CONNECTING ∧ isConnected then
    { s with connectionState := .CONNECTED }
  else s

/-- `void updateConnectionState()`: edge-detect the polled link status, then
run the retry clock on the (possibly just updated) state.  The Disconnected →
Connecting transition only rewrites `connectionState` and
`lastConnectionAttempt`; the function commands nothing on the link layer
(the code merely prints a log line there). -/
def updateConnectionState (s : SysState) (isConnected : Bool) (now : Nat) : SysState :=
  retryClock (detectLinkChange s isConnected now) isConnected now

/-- `void handleEncoderChange()`: if `encoderPos != lastReportedPos`, write
one arrow key chosen by the sign of the difference and then set
`lastReportedPos = encoderPos` (the whole difference at once). -/
def handleEncoderChange (s : SysState) : SysState × List Key :=
  if s.enc.encoderPos ≠ s.lastReportedPos then
    ({ s with lastReportedPos := s.enc.encoderPos },
     [if s.enc.encoderPos > s.lastReportedPos then Key.KEY_RIGHT_ARROW
      else Key.KEY_LEFT_ARROW])
  else (s, [])

/-- `void IRAM_ATTR buttonISR()`: edge-detect half of the button machine.
`sw` is the level `digitalRead(PIN_ENC_SW)` returns. -/
def buttonISR (s : SysState) (now : Nat) (sw : Bool) : SysState :=
  match s.buttonState with
  | .BUTTON_UP =>
      if sw = LOW then
        { s with buttonState := .BUTTON_DEBOUNCING_DOWN, buttonStateChangeTime := now }
      else s
  | .BUTTON_DEBOUNCING_DOWN => s
  | .BUTTON_DOWN =>
      if sw = HIGH then
        { s with buttonState := .BUTTON_DEBOUNCING_UP, buttonStateChangeTime := now }
      else s
  | .BUTTON_DEBOUNCING_UP => s

/-- `void handleButtonEvent()`: confirmation half of the button machine plus
the emission of `KEY_RETURN` while `BUTTON_DOWN`.  `sw` is the level the
re-sample `digitalRead(PIN_ENC_SW)` returns at this tick. -/
def handleButtonEvent (s : SysState) (now : Nat) (sw : Bool) : SysState × List Key :=
  match s.buttonState with
  | .BUTTON_DEBOUNCING_DOWN =>
      if now - s.buttonStateChangeTime > buttonDebounceTime then
        if sw = LOW then
          ({ s with buttonState := .BUTTON_DOWN, buttonEventProcessed := false }, [])
        else
          ({ s with buttonState := .BUTTON_UP }, [])
      else (s, [])
  | .BUTTON_DEBOUNCING_UP =>
      if now - s.buttonStateChangeTime > buttonDebounceTime then
        if sw = HIGH then
          ({ s with buttonState := .BUTTON_UP }, [])
        else
          ({ s with buttonState := .BUTTON_DOWN }, [])
      else (s, [])
  | .BUTTON_DOWN =>
      if s.connectionState = .CONNECTED ∧ s.buttonEventProcessed = false then
        ({ s with buttonEventProcessed := true }, [Key.KEY_RETURN])
      else (s, [])
  | .BUTTON_UP => (s, [])

/-- One asynchronous event of a run: an encoder-pin edge interrupt, a
button-pin edge interrupt, or one iteration of `loop()` (a dispatcher tick).
Each event carries the `millis()` value and the pin levels read during it;
a tick also carries what `bleKeyboard.isConnected()` returns. -/
inductive Ev where
  | encEdge (now : Nat) (pinA pinB : Bool)
  | btnEdge (now : Nat) (sw : Bool)
  | tick (now : Nat) (linkUp : Bool) (sw : Bool)
deriving DecidableEq, Repr

/-- One step of the system, returning the keys written during it.  A tick is
the body of `loop()`: `updateConnectionState`, then (`updateLED`, stateless
here), then `handleEncoderChange` only when `connectionState == CONNECTED`,
then `handleButtonEvent`. -/
def step (s : SysState) : Ev → SysState × List Key
  | .encEdge now a b => ({ s with enc := encoderISR s.enc now a b }, [])
  | .btnEdge now sw => (buttonISR s now sw, [])
  | .tick now linkUp sw =>
      let s1 := updateConnectionState s linkUp now
      let r1 := if s1.connectionState = .CONNECTED then handleEncoderChange s1 else (s1, [])
      let r2 := handleButtonEvent r1.1 now sw
      (r2.1, r1.2 ++ r2.2)

/-- Run a list of events, concatenating the keys written. -/
def runTrace (s : SysState) : List Ev → SysState × List Key
  | [] => (s, [])
  | ev :: rest =>
      let r := step s ev
      let rr := runTrace r.1 rest
      (rr.1, r.2 ++ rr.2)

/-- A clean state with the link up: connected, no pending encoder steps,
button idle.  (This is the state the sketch reaches after `setup()` once the
host connects, before any input.) -/
def initConnected : SysState :=
  { connectionState := .CONNECTED, wasConnected := true, lastConnectionAttempt := 0,
    enc := { encoderPos := 0, lastEncoderEvent := 0, old_AB := 0 },
    lastReportedPos := 0,
    buttonState := .BUTTON_UP, buttonStateChangeTime := 0, buttonEventProcessed := true }

/-- A fresh decoder: `encoderPos = 0`, `lastEncoderEvent = 0`, `old_AB = 0`
(the C initial values). -/
def enc0 : EncState := { encoderPos := 0, lastEncoderEvent := 0, old_AB := 0 }

/-- Successor pin pair on the clockwise Gray cycle `00→01→11→10→00`. -/
def cwNext : Nat → Nat
  | 0 => 1
  | 1 => 3
  | 3 => 2
  | 2 => 0
  | _ => 0

/-- Successor pin pair on the counter-clockwise Gray cycle `00→10→11→01→00`. -/
def ccwNext : Nat → Nat
  | 0 => 2
  | 2 => 3
  | 3 => 1
  | 1 => 0
  | _ => 0

/-- The A (CLK) bit of a 2-bit pin pair. -/
def pinAOf (p : Nat) : Bool := decide (p / 2 % 2 = 1)

/-- The B (DT) bit of a 2-bit pin pair. -/
def pinBOf (p : Nat) : Bool := decide (p % 2 = 1)

/-- `legalSpaced p lastT es` holds when every edge event in `es` is accepted
by a decoder whose history is `p` and whose last accepted transition was at
`lastT`: each event is Gray-adjacent (either direction) to the running pair
and arrives at least `encoderDebounceTime` after the previously accepted
one. -/
def legalSpaced (p lastT : Nat) : List (Nat × Bool × Bool) → Bool
  | [] => true
  | (t, a, b) :: rest =>
      decide (lastT + encoderDebounceTime ≤ t) &&
      (abOf a b == cwNext p || abOf a b == ccwNext p) &&
      legalSpaced (abOf a b) t rest

/-- Number of events of a transition list that are clockwise steps relative
to the running pin pair. -/
def cwCount (p : Nat) : List (Nat × Bool × Bool) → Nat
  | [] => 0
  | (_, a, b) :: rest => (if abOf a b = cwNext p then 1 else 0) + cwCount (abOf a b) rest

/-- Number of events of a transition list that are counter-clockwise steps
relative to the running pin pair. -/
def ccwCount (p : Nat) : List (Nat × Bool × Bool) → Nat
  | [] => 0
  | (_, a, b) :: rest => (if abOf a b = ccwNext p then 1 else 0) + ccwCount (abOf a b) rest

/-- `n` clockwise edge interrupts starting from pin pair `p` at time `t`,
spaced exactly `encoderDebounceTime` apart (so every one is accepted). -/
def cwTraceFrom : Nat → Nat → Nat → List Ev
  | _, _, 0 => []
  | p, t, n + 1 =>
      Ev.encEdge (t + encoderDebounceTime) (pinAOf (cwNext p)) (pinBOf (cwNext p)) ::
        cwTraceFrom (cwNext p) (t + encoderDebounceTime) n

/-- One dispatcher tick per listed time, with the link up and the button pin
released. -/
def connTicksAt (ts : List Nat) : List Ev := ts.map fun t => Ev.tick t true HIGH

/-- The next stage of the button cycle `Up → DebouncingDown → Down →
DebouncingUp → Up`. -/
def nextStage : ButtonState → ButtonState
  | .BUTTON_UP => .BUTTON_DEBOUNCING_DOWN
  | .BUTTON_DEBOUNCING_DOWN => .BUTTON_DOWN
  | .BUTTON_DOWN => .BUTTON_DEBOUNCING_UP
  | .BUTTON_DEBOUNCING_UP => .BUTTON_UP

/-- The previous stage of the button cycle (the target of a noise revert
out of a debouncing stage). -/
def prevStage : ButtonState → ButtonState
  | .BUTTON_UP => .BUTTON_DEBOUNCING_UP
  | .BUTTON_DEBOUNCING_DOWN => .BUTTON_UP
  | .BUTTON_DOWN => .BUTTON_DEBOUNCING_DOWN
  | .BUTTON_DEBOUNCING_UP => .BUTTON_DOWN

/-! Helper lemmas about the Gray-code tables and the step functions. -/

lemma cwNext_lt : ∀ p, p < 4 → cwNext p < 4 := by decide

lemma isCW_cwNext : ∀ p, p < 4 → isCW p (cwNext p) = true := by decide

lemma isCCW_ccwNext : ∀ p, p < 4 → isCCW p (ccwNext p) = true := by decide

lemma isCW_ccwNext : ∀ p, p < 4 → isCW p (ccwNext p) = false := by decide

lemma isCCW_cwNext : ∀ p, p < 4 → isCCW p (cwNext p) = false := by decide

lemma ccwNext_lt : ∀ p, p < 4 → ccwNext p < 4 := by decide

lemma cwNext_ne_ccwNext : ∀ p, p < 4 → cwNext p ≠ ccwNext p := by decide

lemma abOf_pins : ∀ p, p < 4 → abOf (pinAOf p) (pinBOf p) = p := by decide

lemma encoderISR_time_reject (e : EncState) (t : Nat) (a b : Bool)
    (h : t - e.lastEncoderEvent < encoderDebounceTime) :
    encoderISR e t a b = e := by
  simp only [encoderISR, if_pos h]

lemma encoderISR_accept_cw (e : EncState) (t : Nat) (a b : Bool)
    (hAB : e.old_AB < 4) (hsp : encoderDebounceTime ≤ t - e.lastEncoderEvent)
    (hdir : abOf a b = cwNext e.old_AB) :
    encoderISR e t a b =
      { encoderPos := e.encoderPos + 1, lastEncoderEvent := t, old_AB := abOf a b } := by
  have h1 : ¬ (t - e.lastEncoderEvent < encoderDebounceTime) := by omega
  simp only [encoderISR, if_neg h1, hdir, isCW_cwNext _ hAB, if_true]

lemma encoderISR_accept_ccw (e : EncState) (t : Nat) (a b : Bool)
    (hAB : e.old_AB < 4) (hsp : encoderDebounceTime ≤ t - e.lastEncoderEvent)
    (hdir : abOf a b = ccwNext e.old_AB) :
    encoderISR e t a b =
      { encoderPos := e.encoderPos - 1, lastEncoderEvent := t, old_AB := abOf a b } := by
  have h1 : ¬ (t - e.lastEncoderEvent < encoderDebounceTime) := by omega
  simp only [encoderISR, if_neg h1, hdir, isCW_ccwNext _ hAB, isCCW_ccwNext _ hAB,
    if_true, Bool.false_eq_true, if_false]

lemma encoderISR_illegal (e : EncState) (t : Nat) (a b : Bool)
    (h1 : isCW e.old_AB (abOf a b) = false) (h2 : isCCW e.old_AB (abOf a b) = false) :
    encoderISR e t a b =
      if t - e.lastEncoderEvent < encoderDebounceTime then e
      else { e with old_AB := abOf a b } := by
  simp only [encoderISR, h1, h2, Bool.false_eq_true, if_false]

/-- Claim C2 is false as stated: an `encoderISR` invocation whose pin-pair
transition matches neither Gray-code adjacency is claimed to mutate no
decoder state at all, but on the fresh decoder (history `00`) an illegal
jump to `11` at `t = 7` (past the debounce window) leaves `encoderPos` and
`lastEncoderEvent` alone yet overwrites the 2-bit history `old_AB` with the
observed pair. -/
theorem c2_counterexample :
    isCW enc0.old_AB (abOf true true) = false ∧
    isCCW enc0.old_AB (abOf true true) = false ∧
    (encoderISR enc0 7 true true).encoderPos = enc0.encoderPos ∧
    (encoderISR enc0 7 true true).lastEncoderEvent = enc0.lastEncoderEvent ∧
    (encoderISR enc0 7 true true).old_AB ≠ enc0.old_AB := by
  decide

/-- Claim C2, amended: an invocation of `encoderISR` observing an illegal
(non-Gray-adjacent) pin-pair transition never changes `encoderPos` or
`lastEncoderEvent`; if it falls inside the debounce window it changes
nothing at all, and otherwise it overwrites the 2-bit history `old_AB` with
the observed pin pair. -/
theorem c2_amended (e : EncState) (t : Nat) (a b : Bool)
    (h1 : isCW e.old_AB (abOf a b) = false) (h2 : isCCW e.old_AB (abOf a b) = false) :
    (encoderISR e t a b).encoderPos = e.encoderPos ∧
    (encoderISR e t a b).lastEncoderEvent = e.lastEncoderEvent ∧
    (encoderISR e t a b).old_AB =
      (if t - e.lastEncoderEvent < encoderDebounceTime then e.old_AB else abOf a b) := by
  rw [encoderISR_illegal e t a b h1 h2]
  split <;> simp

/-- Witness for `c2_amended` at the fresh decoder, `t = 7`, pins `11`. -/
theorem c2_amended_witness :
    isCW enc0.old_AB (abOf true true) = false ∧
    isCCW enc0.old_AB (abOf true true) = false ∧
    ((encoderISR enc0 7 true true).encoderPos = enc0.encoderPos ∧
     (encoderISR enc0 7 true true).lastEncoderEvent = enc0.lastEncoderEvent ∧
     (encoderISR enc0 7 true true).old_AB =
       (if 7 - enc0.lastEncoderEvent < encoderDebounceTime then enc0.old_AB
        else abOf true true)) :=
  ⟨by decide, by decide, c2_amended enc0 7 true true (by decide) (by decide)⟩

/-- Claim C9 is false as stated: inserting an illegal pin-pair jump is
claimed to have zero effect on the final position, but the jump rewrites
the 2-bit history, so it changes how subsequent transitions are classified.
Fresh decoder; the single legal event `(t = 10, pins 01)` alone decodes as
clockwise (`00→01`, position `1`), while the same event preceded by the
illegal jump `(t = 5, pins 11)` decodes as counter-clockwise (`11→01`,
position `-1`). -/
theorem c9_counterexample :
    isCW enc0.old_AB (abOf true true) = false ∧
    isCCW enc0.old_AB (abOf true true) = false ∧
    (runEnc enc0 [(10, false, true)]).encoderPos = 1 ∧
    (runEnc enc0 [(5, true, true), (10, false, true)]).encoderPos = -1 ∧
    (runEnc enc0 [(5, true, true), (10, false, true)]).encoderPos ≠
      (runEnc enc0 [(10, false, true)]).encoderPos := by
  decide

/-- Claim C9, amended: an illegal (non-adjacent) pin-pair jump leaves
`position` unchanged at its own invocation — the position right after the
jump equals the position right before it — but, because the invocation
updates the 2-bit history, the decoder's final position after the rest of
the sequence may differ from the run without the jump. -/
theorem c9_amended (e : EncState) (t : Nat) (a b : Bool)
    (h1 : isCW e.old_AB (abOf a b) = false) (h2 : isCCW e.old_AB (abOf a b) = false) :
    (encoderISR e t a b).encoderPos = e.encoderPos := by
  rw [encoderISR_illegal e t a b h1 h2]
  split <;> simp

/-- Witness for `c9_amended` at the fresh decoder, `t = 5`, pins `11`. -/
theorem c9_amended_witness :
    isCW enc0.old_AB (abOf true true) = false ∧
    isCCW enc0.old_AB (abOf true true) = false ∧
    (encoderISR enc0 5 true true).encoderPos = enc0.encoderPos :=
  ⟨by decide, by decide, c9_amended enc0 5 true true (by decide) (by decide)⟩

/-- Claim C5: the encoder debounce interval is measured from the last
accepted transition.  Three parts: (i) of two accepted-candidate
(Gray-adjacent) transitions less than `encoderDebounceTime` apart, only the
first is accepted — the second leaves the decoder state untouched;
(ii) `lastEncoderEvent` (the debounce baseline) moves only when a
transition is accepted (position steps by one), and then to that
transition's time — so no rejected transition resets it; (iii) a
Gray-adjacent candidate arriving at least `encoderDebounceTime` after the
last accepted transition is not rejected by the time check: it is accepted,
stepping the position and resetting the baseline. -/
theorem c5_debounce_from_last_accepted :
    (∀ (e : EncState) (t1 t2 : Nat) (a1 b1 a2 b2 : Bool),
        e.old_AB < 4 →
        encoderDebounceTime ≤ t1 - e.lastEncoderEvent →
        (abOf a1 b1 = cwNext e.old_AB ∨ abOf a1 b1 = ccwNext e.old_AB) →
        t1 ≤ t2 → t2 - t1 < encoderDebounceTime →
        encoderISR (encoderISR e t1 a1 b1) t2 a2 b2 = encoderISR e t1 a1 b1) ∧
    (∀ (e : EncState) (t : Nat) (a b : Bool),
        (encoderISR e t a b).lastEncoderEvent ≠ e.lastEncoderEvent →
        (encoderISR e t a b).lastEncoderEvent = t ∧
        ((encoderISR e t a b).encoderPos = e.encoderPos + 1 ∨
         (encoderISR e t a b).encoderPos = e.encoderPos - 1)) ∧
    (∀ (e : EncState) (t : Nat) (a b : Bool),
        e.old_AB < 4 →
        encoderDebounceTime ≤ t - e.lastEncoderEvent →
        (abOf a b = cwNext e.old_AB ∨ abOf a b = ccwNext e.old_AB) →
        (encoderISR e t a b).lastEncoderEvent = t ∧
        ((encoderISR e t a b).encoderPos = e.encoderPos + 1 ∨
         (encoderISR e t a b).encoderPos = e.encoderPos - 1)) := by
  refine ⟨?_, ?_, ?_⟩
  · intro e t1 t2 a1 b1 a2 b2 hAB hsp hdir hmono hclose
    have hlast : (encoderISR e t1 a1 b1).lastEncoderEvent = t1 := by
      rcases hdir with h | h
      · rw [encoderISR_accept_cw e t1 a1 b1 hAB hsp h]
      · rw [encoderISR_accept_ccw e t1 a1 b1 hAB hsp h]
    apply encoderISR_time_reject
    rw [hlast]
    simp only [encoderDebounceTime] at hclose ⊢
    omega
  · intro e t a b hne
    by_cases ht : t - e.lastEncoderEvent < encoderDebounceTime
    · rw [encoderISR_time_reject e t a b ht] at hne
      exact absurd rfl hne
    · by_cases hcw : isCW e.old_AB (abOf a b) = true
      · have hstep : encoderISR e t a b =
            { encoderPos := e.encoderPos + 1, lastEncoderEvent := t, old_AB := abOf a b } := by
          simp only [encoderISR, if_neg ht, hcw, if_true]
        rw [hstep]
        exact ⟨rfl, Or.inl rfl⟩
      · rw [Bool.not_eq_true] at hcw
        by_cases hccw : isCCW e.old_AB (abOf a b) = true
        · have hstep : encoderISR e t a b =
              { encoderPos := e.encoderPos - 1, lastEncoderEvent := t, old_AB := abOf a b } := by
            simp only [encoderISR, if_neg ht, hcw, hccw, Bool.false_eq_true, if_false, if_true]
          rw [hstep]
          exact ⟨rfl, Or.inr rfl⟩
        · rw [Bool.not_eq_true] at hccw
          rw [encoderISR_illegal e t a b hcw hccw, if_neg ht] at hne
          exact absurd rfl hne
  · intro e t a b hAB hsp hdir
    rcases hdir with h | h
    · rw [encoderISR_accept_cw e t a b hAB hsp h]
      exact ⟨rfl, Or.inl rfl⟩
    · rw [encoderISR_accept_ccw e t a b hAB hsp h]
      exact ⟨rfl, Or.inr rfl⟩

/-- Witness for `c5_debounce_from_last_accepted`: fresh decoder, accepted
clockwise transition at `t = 5` (pins `01`), second candidate at `t = 8`. -/
theorem c5_witness :
    encoderISR (encoderISR enc0 5 false true) 8 true true = encoderISR enc0 5 false true ∧
    ((encoderISR enc0 5 false true).lastEncoderEvent = 5 ∧
     ((encoderISR enc0 5 false true).encoderPos = enc0.encoderPos + 1 ∨
      (encoderISR enc0 5 false true).encoderPos = enc0.encoderPos - 1)) ∧
    ((encoderISR enc0 8 true false).lastEncoderEvent = 8 ∧
     ((encoderISR enc0 8 true false).encoderPos = enc0.encoderPos + 1 ∨
      (encoderISR enc0 8 true false).encoderPos = enc0.encoderPos - 1)) :=
  ⟨c5_debounce_from_last_accepted.1 enc0 5 8 false true true true (by decide) (by decide)
      (Or.inl (by decide)) (by decide) (by decide),
   c5_debounce_from_last_accepted.2.2 enc0 5 false true (by decide) (by decide)
      (Or.inl (by decide)),
   c5_debounce_from_last_accepted.2.1 enc0 8 true false (by decide)⟩

lemma runEnc_counts (es : List (Nat × Bool × Bool)) :
    ∀ e : EncState, e.old_AB < 4 →
      legalSpaced e.old_AB e.lastEncoderEvent es = true →
      (runEnc e es).encoderPos =
        e.encoderPos + (cwCount e.old_AB es : Int) - (ccwCount e.old_AB es : Int) := by
  induction es with
  | nil =>
    intro e _ _
    simp [runEnc, cwCount, ccwCount]
  | cons hd tl ih =>
    obtain ⟨t, a, b⟩ := hd
    intro e hAB hleg
    simp only [legalSpaced, Bool.and_eq_true, Bool.or_eq_true, beq_iff_eq,
      decide_eq_true_eq] at hleg
    obtain ⟨⟨hsp, hdir⟩, hrest⟩ := hleg
    have hsp' : encoderDebounceTime ≤ t - e.lastEncoderEvent := by omega
    rcases hdir with hcw | hccw
    · have hstep := encoderISR_accept_cw e t a b hAB hsp' hcw
      have hlt : abOf a b < 4 := hcw ▸ cwNext_lt _ hAB
      have hne : abOf a b ≠ ccwNext e.old_AB := by
        rw [hcw]; exact cwNext_ne_ccwNext _ hAB
      have := ih { encoderPos := e.encoderPos + 1, lastEncoderEvent := t, old_AB := abOf a b }
        hlt (by simpa using hrest)
      simp only [runEnc, hstep, this, cwCount, ccwCount, if_pos hcw, if_neg hne]
      push_cast
      ring
    · have hstep := encoderISR_accept_ccw e t a b hAB hsp' hccw
      have hlt : abOf a b < 4 := hccw ▸ ccwNext_lt _ hAB
      have hne : abOf a b ≠ cwNext e.old_AB := by
        rw [hccw]; exact Ne.symm (cwNext_ne_ccwNext _ hAB)
      have := ih { encoderPos := e.encoderPos - 1, lastEncoderEvent := t, old_AB := abOf a b }
        hlt (by simpa using hrest)
      simp only [runEnc, hstep, this, cwCount, ccwCount, if_pos hccw, if_neg hne]
      push_cast
      ring

/-- Claim C4: replaying any sequence of legal Gray-code transitions, each
accepted (Gray-adjacent to the running pin pair and at least
`encoderDebounceTime` after the previously accepted transition), against a
fresh decoder yields `encoderPos` equal to the number of clockwise
transitions minus the number of counter-clockwise transitions, where
clockwise follows `00→01→11→10→00` and counter-clockwise its reverse. -/
theorem c4_gray_code_replay (es : List (Nat × Bool × Bool))
    (h : legalSpaced 0 0 es = true) :
    (runEnc enc0 es).encoderPos = (cwCount 0 es : Int) - (ccwCount 0 es : Int) := by
  have := runEnc_counts es enc0 (by norm_num [enc0]) (by simpa [enc0] using h)
  simpa [enc0] using this

/-- Witness for `c4_gray_code_replay`: one clockwise step (`00→01` at
`t = 5`) followed by one counter-clockwise step back (`01→00` at `t = 10`),
ending at position `1 - 1 = 0`. -/
theorem c4_witness :
    legalSpaced 0 0 [(5, false, true), (10, false, false)] = true ∧
    (runEnc enc0 [(5, false, true), (10, false, false)]).encoderPos =
      (cwCount 0 [(5, false, true), (10, false, false)] : Int) -
      (ccwCount 0 [(5, false, true), (10, false, false)] : Int) :=
  ⟨by decide, c4_gray_code_replay [(5, false, true), (10, false, false)] (by decide)⟩

lemma fold_disc_quiet (ts : List Nat) (t0 : Nat) :
    ∀ st : SysState, st.connectionState = .DISCONNECTED → st.wasConnected = false →
      st.lastConnectionAttempt = t0 → (∀ t ∈ ts, t - t0 ≤ RECONNECT_DELAY) →
      ts.foldl (fun s t => updateConnectionState s false t) st = st := by
  induction ts with
  | nil => intro st _ _ _ _; rfl
  | cons t ts ih =>
    intro st hc hw hl hts
    have hle : ¬ (RECONNECT_DELAY < t - st.lastConnectionAttempt) := by
      rw [hl]
      have := hts t (by simp)
      omega
    have hstep : updateConnectionState st false t = st := by
      simp [updateConnectionState, detectLinkChange, retryClock, hw, hc, hle]
    rw [List.foldl_cons, hstep]
    exact ih st hc hw hl fun x hx => hts x (by simp [hx])

/-- Claim C6: when the link reports unlinked while Connected, the state
becomes Disconnected with the retry baseline reset to the current time; it
stays Disconnected on every later poll until more than `RECONNECT_DELAY`
has elapsed since that baseline, then becomes Connecting — a transition
that rewrites only `connectionState` and `lastConnectionAttempt` (the
function commands nothing on the link layer).  Concretely, after a
disconnect at `t0` the state is still Disconnected at `t0 + 4999` and is
Connecting at `t0 + 5001`. -/
theorem c6_reconnect_clock (s : SysState) (t0 t2 : Nat) (ts : List Nat)
    (_hconn : s.connectionState = .CONNECTED) (hwas : s.wasConnected = true)
    (hts : ∀ t ∈ ts, t - t0 ≤ RECONNECT_DELAY)
    (ht2 : RECONNECT_DELAY < t2 - t0) :
    updateConnectionState s false t0 =
      { s with connectionState := .DISCONNECTED, wasConnected := false,
               lastConnectionAttempt := t0 } ∧
    ts.foldl (fun st t => updateConnectionState st false t)
        (updateConnectionState s false t0) = updateConnectionState s false t0 ∧
    updateConnectionState (updateConnectionState s false t0) false t2 =
      { s with connectionState := .CONNECTING, wasConnected := false,
               lastConnectionAttempt := t2 } ∧
    (updateConnectionState (updateConnectionState s false t0) false (t0 + 4999)).connectionState
      = .DISCONNECTED ∧
    (updateConnectionState (updateConnectionState s false t0) false (t0 + 5001)).connectionState
      = .CONNECTING := by
  have h1 : updateConnectionState s false t0 =
      { s with connectionState := .DISCONNECTED, wasConnected := false,
               lastConnectionAttempt := t0 } := by
    simp [updateConnectionState, detectLinkChange, retryClock, hwas]
  refine ⟨h1, ?_, ?_, ?_, ?_⟩
  · rw [h1]
    exact fold_disc_quiet ts t0 _ rfl rfl rfl hts
  · rw [h1]
    simp [updateConnectionState, detectLinkChange, retryClock, ht2]
  · rw [h1]
    simp [updateConnectionState, detectLinkChange, retryClock, RECONNECT_DELAY]
  · rw [h1]
    simp [updateConnectionState, detectLinkChange, retryClock, RECONNECT_DELAY]

/-- Witness for `c6_reconnect_clock`: disconnect at `t0 = 100`, quiet polls
at `600` and `5100` (at most 5000 ms past the baseline), retry fires at
`5101`. -/
theorem c6_witness :
    (∀ t ∈ [600, 5100], t - 100 ≤ RECONNECT_DELAY) ∧
    RECONNECT_DELAY < 5101 - 100 ∧
    (updateConnectionState initConnected false 100 =
      { initConnected with connectionState := .DISCONNECTED, wasConnected := false,
                           lastConnectionAttempt := 100 } ∧
     [600, 5100].foldl (fun st t => updateConnectionState st false t)
        (updateConnectionState initConnected false 100) =
          updateConnectionState initConnected false 100 ∧
     updateConnectionState (updateConnectionState initConnected false 100) false 5101 =
      { initConnected with connectionState := .CONNECTING, wasConnected := false,
                           lastConnectionAttempt := 5101 } ∧
     (updateConnectionState (updateConnectionState initConnected false 100) false
        (100 + 4999)).connectionState = .DISCONNECTED ∧
     (updateConnectionState (updateConnectionState initConnected false 100) false
        (100 + 5001)).connectionState = .CONNECTING) :=
  ⟨by decide, by decide,
   c6_reconnect_clock initConnected 100 5101 [600, 5100] rfl rfl (by decide) (by decide)⟩

lemma detectLinkChange_proj (s : SysState) (l : Bool) (n : Nat) :
    (detectLinkChange s l n).enc = s.enc ∧
    (detectLinkChange s l n).lastReportedPos = s.lastReportedPos ∧
    (detectLinkChange s l n).buttonState = s.buttonState ∧
    (detectLinkChange s l n).buttonStateChangeTime = s.buttonStateChangeTime ∧
    (detectLinkChange s l n).buttonEventProcessed = s.buttonEventProcessed := by
  unfold detectLinkChange
  split_ifs <;> exact ⟨rfl, rfl, rfl, rfl, rfl⟩

lemma retryClock_proj (s : SysState) (l : Bool) (n : Nat) :
    (retryClock s l n).enc = s.enc ∧
    (retryClock s l n).lastReportedPos = s.lastReportedPos ∧
    (retryClock s l n).buttonState = s.buttonState ∧
    (retryClock s l n).buttonStateChangeTime = s.buttonStateChangeTime ∧
    (retryClock s l n).buttonEventProcessed = s.buttonEventProcessed := by
  unfold retryClock
  split_ifs <;> exact ⟨rfl, rfl, rfl, rfl, rfl⟩

lemma updateConnectionState_proj (s : SysState) (l : Bool) (n : Nat) :
    (updateConnectionState s l n).enc = s.enc ∧
    (updateConnectionState s l n).lastReportedPos = s.lastReportedPos ∧
    (updateConnectionState s l n).buttonState = s.buttonState ∧
    (updateConnectionState s l n).buttonStateChangeTime = s.buttonStateChangeTime ∧
    (updateConnectionState s l n).buttonEventProcessed = s.buttonEventProcessed := by
  have h1 := retryClock_proj (detectLinkChange s l n) l n
  have h2 := detectLinkChange_proj s l n
  unfold updateConnectionState
  exact ⟨h1.1.trans h2.1, h1.2.1.trans h2.2.1, h1.2.2.1.trans h2.2.2.1,
    h1.2.2.2.1.trans h2.2.2.2.1, h1.2.2.2.2.trans h2.2.2.2.2⟩

lemma handleEncoderChange_proj (s : SysState) :
    (handleEncoderChange s).1.connectionState = s.connectionState ∧
    (handleEncoderChange s).1.wasConnected = s.wasConnected ∧
    (handleEncoderChange s).1.enc = s.enc ∧
    (handleEncoderChange s).1.buttonState = s.buttonState ∧
    (handleEncoderChange s).1.buttonStateChangeTime = s.buttonStateChangeTime ∧
    (handleEncoderChange s).1.buttonEventProcessed = s.buttonEventProcessed := by
  unfold handleEncoderChange
  split_ifs <;> exact ⟨rfl, rfl, rfl, rfl, rfl, rfl⟩

lemma handleEncoderChange_idle (s : SysState) (h : s.enc.encoderPos = s.lastReportedPos) :
    handleEncoderChange s = (s, []) := by
  simp [handleEncoderChange, h]

lemma handleButtonEvent_proj (s : SysState) (n : Nat) (sw : Bool) :
    (handleButtonEvent s n sw).1.connectionState = s.connectionState ∧
    (handleButtonEvent s n sw).1.wasConnected = s.wasConnected ∧
    (handleButtonEvent s n sw).1.lastConnectionAttempt = s.lastConnectionAttempt ∧
    (handleButtonEvent s n sw).1.enc = s.enc ∧
    (handleButtonEvent s n sw).1.lastReportedPos = s.lastReportedPos := by
  unfold handleButtonEvent
  rcases hb : s.buttonState <;> simp <;> split_ifs <;>
    exact ⟨rfl, rfl, rfl, rfl, rfl⟩

lemma handleButtonEvent_emits (s : SysState) (n : Nat) (sw : Bool)
    (h : (handleButtonEvent s n sw).2 ≠ []) :
    s.connectionState = .CONNECTED := by
  revert h
  unfold handleButtonEvent
  rcases hb : s.buttonState <;> simp <;> split_ifs <;> simp_all

lemma buttonISR_cases (s : SysState) (n : Nat) (sw : Bool) :
    (buttonISR s n sw).buttonState = s.buttonState ∨
    (buttonISR s n sw).buttonState = nextStage s.buttonState := by
  unfold buttonISR
  rcases hb : s.buttonState <;> simp [hb, nextStage] <;> split_ifs <;>
    simp [hb, nextStage]

lemma handleButtonEvent_cases (s : SysState) (n : Nat) (sw : Bool) :
    (handleButtonEvent s n sw).1.buttonState = s.buttonState ∨
    (handleButtonEvent s n sw).1.buttonState = nextStage s.buttonState ∨
    (handleButtonEvent s n sw).1.buttonState = prevStage s.buttonState := by
  unfold handleButtonEvent
  rcases hb : s.buttonState <;> simp [hb, nextStage, prevStage] <;> split_ifs <;>
    simp [hb, nextStage, prevStage]

/-- Claim C7: no key is ever written while the connection state is not
Connected.  For every state and every event, if a step of the system emits
any key at all, the connection state in force during that step (never
modified by the emitting handlers) is `CONNECTED`: both the encoder arrow
keys and the button key are gated on the connection. -/
theorem c7_emission_gated (s : SysState) (ev : Ev) (h : (step s ev).2 ≠ []) :
    (step s ev).1.connectionState = .CONNECTED := by
  cases ev with
  | encEdge now a b => simp [step] at h
  | btnEdge now sw => simp [step] at h
  | tick now linkUp sw =>
    simp only [step] at h ⊢
    by_cases hc : (updateConnectionState s linkUp now).connectionState = .CONNECTED
    · rw [if_pos hc] at h ⊢
      have h1 := (handleEncoderChange_proj (updateConnectionState s linkUp now)).1
      have h2 := (handleButtonEvent_proj
        (handleEncoderChange (updateConnectionState s linkUp now)).1 now sw).1
      rw [h2, h1]
      exact hc
    · rw [if_neg hc] at h ⊢
      simp only [List.nil_append] at h
      exact absurd (handleButtonEvent_emits (updateConnectionState s linkUp now) now sw h) hc

/-- Witness for `c7_emission_gated`: a connected tick with one pending
encoder step emits a key, and the connection state during it is
`CONNECTED`. -/
theorem c7_witness :
    (step { initConnected with enc := { encoderPos := 1, lastEncoderEvent := 0, old_AB := 1 } }
        (Ev.tick 0 true HIGH)).2 ≠ [] ∧
    (step { initConnected with enc := { encoderPos := 1, lastEncoderEvent := 0, old_AB := 1 } }
        (Ev.tick 0 true HIGH)).1.connectionState = .CONNECTED :=
  ⟨by decide, c7_emission_gated _ _ (by decide)⟩

/-- Claim C8 is false as stated: not every button state transition moves to
the next stage of the cycle `Up → DebouncingDown → Down → DebouncingUp →
Up`.  A dispatcher tick that re-samples the pin inactive after the debounce
window (bounce) moves `DebouncingDown` back to `Up`, which is a state
change but not to `Down`, the next stage. -/
theorem c8_counterexample :
    (step { initConnected with buttonState := .BUTTON_DEBOUNCING_DOWN }
        (Ev.tick 51 true HIGH)).1.buttonState ≠
      ({ initConnected with buttonState := .BUTTON_DEBOUNCING_DOWN } : SysState).buttonState ∧
    (step { initConnected with buttonState := .BUTTON_DEBOUNCING_DOWN }
        (Ev.tick 51 true HIGH)).1.buttonState ≠
      nextStage ({ initConnected with
        buttonState := .BUTTON_DEBOUNCING_DOWN } : SysState).buttonState := by
  decide

/-- Claim C8, amended: every state transition of the button machine —
whether by the interrupt handler or by the dispatcher — either leaves the
state unchanged, advances it to the next stage of the cycle
`Up → DebouncingDown → Down → DebouncingUp → Up`, or (on a noise revert out
of a debouncing stage) returns it to the immediately preceding stage; no
transition ever skips a stage. -/
theorem c8_amended (s : SysState) (ev : Ev) :
    (step s ev).1.buttonState = s.buttonState ∨
    (step s ev).1.buttonState = nextStage s.buttonState ∨
    (step s ev).1.buttonState = prevStage s.buttonState := by
  cases ev with
  | encEdge now a b => exact Or.inl rfl
  | btnEdge now sw =>
    rcases buttonISR_cases s now sw with h | h
    · exact Or.inl h
    · exact Or.inr (Or.inl h)
  | tick now linkUp sw =>
    simp only [step]
    have hu : (updateConnectionState s linkUp now).buttonState = s.buttonState :=
      (updateConnectionState_proj s linkUp now).2.2.1
    by_cases hc : (updateConnectionState s linkUp now).connectionState = .CONNECTED
    · rw [if_pos hc]
      have he := (handleEncoderChange_proj (updateConnectionState s linkUp now)).2.2.2.1
      have := handleButtonEvent_cases
        (handleEncoderChange (updateConnectionState s linkUp now)).1 now sw
      rw [he, hu] at this
      exact this
    · rw [if_neg hc]
      have := handleButtonEvent_cases (updateConnectionState s linkUp now) now sw
      rw [hu] at this
      exact this

lemma runTrace_cons (s : SysState) (e : Ev) (l : List Ev) :
    runTrace s (e :: l) =
      ((runTrace (step s e).1 l).1, (step s e).2 ++ (runTrace (step s e).1 l).2) := rfl

lemma runTrace_append (s : SysState) (l1 l2 : List Ev) :
    runTrace s (l1 ++ l2) =
      ((runTrace (runTrace s l1).1 l2).1,
       (runTrace s l1).2 ++ (runTrace (runTrace s l1).1 l2).2) := by
  induction l1 generalizing s with
  | nil => simp [runTrace]
  | cons e l ih =>
    simp only [List.cons_append, runTrace_cons, ih, List.append_assoc]

lemma ucs_conn_idle (s : SysState) (now : Nat) (hc : s.connectionState = .CONNECTED)
    (hw : s.wasConnected = true) : updateConnectionState s true now = s := by
  simp [updateConnectionState, detectLinkChange, retryClock, hc, hw]

lemma tick_idle (s : SysState) (now : Nat) (sw : Bool)
    (hc : s.connectionState = .CONNECTED) (hw : s.wasConnected = true)
    (he : s.enc.encoderPos = s.lastReportedPos)
    (hb : s.buttonState = .BUTTON_UP ∨
          (s.buttonState = .BUTTON_DOWN ∧ s.buttonEventProcessed = true)) :
    step s (.tick now true sw) = (s, []) := by
  simp only [step, ucs_conn_idle s now hc hw, if_pos hc, handleEncoderChange_idle s he]
  rcases hb with hb | ⟨hb, hp⟩
  · simp [handleButtonEvent, hb]
  · simp [handleButtonEvent, hb, hp]

lemma run_idle_ticks (ts : List Nat) (sw : Bool) :
    ∀ s : SysState, s.connectionState = .CONNECTED → s.wasConnected = true →
      s.enc.encoderPos = s.lastReportedPos →
      (s.buttonState = .BUTTON_UP ∨
       (s.buttonState = .BUTTON_DOWN ∧ s.buttonEventProcessed = true)) →
      runTrace s (ts.map fun t => Ev.tick t true sw) = (s, []) := by
  induction ts with
  | nil => intro s _ _ _ _; rfl
  | cons t ts ih =>
    intro s hc hw he hb
    rw [List.map_cons, runTrace_cons, tick_idle s t sw hc hw he hb]
    simp [ih s hc hw he hb]

lemma btnEdge_press (s : SysState) (now : Nat) (hb : s.buttonState = .BUTTON_UP) :
    step s (.btnEdge now LOW) =
      ({ s with buttonState := .BUTTON_DEBOUNCING_DOWN, buttonStateChangeTime := now }, []) := by
  simp [step, buttonISR, hb]

lemma btnEdge_release (s : SysState) (now : Nat) (hb : s.buttonState = .BUTTON_DOWN) :
    step s (.btnEdge now HIGH) =
      ({ s with buttonState := .BUTTON_DEBOUNCING_UP, buttonStateChangeTime := now }, []) := by
  simp [step, buttonISR, hb]

lemma tick_confirm_down (s : SysState) (now : Nat)
    (hc : s.connectionState = .CONNECTED) (hw : s.wasConnected = true)
    (he : s.enc.encoderPos = s.lastReportedPos)
    (hb : s.buttonState = .BUTTON_DEBOUNCING_DOWN)
    (hd : buttonDebounceTime < now - s.buttonStateChangeTime) :
    step s (.tick now true LOW) =
      ({ s with buttonState := .BUTTON_DOWN, buttonEventProcessed := false }, []) := by
  simp only [step, ucs_conn_idle s now hc hw, if_pos hc, handleEncoderChange_idle s he]
  simp [handleButtonEvent, hb, hd, LOW]

lemma tick_bounce_up (s : SysState) (now : Nat)
    (hc : s.connectionState = .CONNECTED) (hw : s.wasConnected = true)
    (he : s.enc.encoderPos = s.lastReportedPos)
    (hb : s.buttonState = .BUTTON_DEBOUNCING_DOWN)
    (hd : buttonDebounceTime < now - s.buttonStateChangeTime) :
    step s (.tick now true HIGH) = ({ s with buttonState := .BUTTON_UP }, []) := by
  simp only [step, ucs_conn_idle s now hc hw, if_pos hc, handleEncoderChange_idle s he]
  simp [handleButtonEvent, hb, hd, LOW, HIGH]

lemma tick_emit (s : SysState) (now : Nat) (sw : Bool)
    (hc : s.connectionState = .CONNECTED) (hw : s.wasConnected = true)
    (he : s.enc.encoderPos = s.lastReportedPos)
    (hb : s.buttonState = .BUTTON_DOWN) (hp : s.buttonEventProcessed = false) :
    step s (.tick now true sw) =
      ({ s with buttonEventProcessed := true }, [Key.KEY_RETURN]) := by
  simp only [step, ucs_conn_idle s now hc hw, if_pos hc, handleEncoderChange_idle s he]
  simp [handleButtonEvent, hb, hp, hc]

lemma tick_confirm_up (s : SysState) (now : Nat)
    (hc : s.connectionState = .CONNECTED) (hw : s.wasConnected = true)
    (he : s.enc.encoderPos = s.lastReportedPos)
    (hb : s.buttonState = .BUTTON_DEBOUNCING_UP)
    (hd : buttonDebounceTime < now - s.buttonStateChangeTime) :
    step s (.tick now true HIGH) = ({ s with buttonState := .BUTTON_UP }, []) := by
  simp only [step, ucs_conn_idle s now hc hw, if_pos hc, handleEncoderChange_idle s he]
  simp [handleButtonEvent, hb, hd, HIGH]

/-- Claim C3: with the link Connected at every dispatcher tick involved, a
full button cycle yields exactly one key event, produced by the Down
confirmation and never by the release; a bounce fully contained within the
debounce window yields zero events.  The cycle is: press edge at `t0`
(Up → DebouncingDown), confirming tick at `tc` past the debounce window
with the pin still active (→ Down, press queued), a tick at `te` that
emits the single `KEY_RETURN`, any further ticks while held, release edge
at `t1` (→ DebouncingUp), confirming tick at `tr` past the window with the
pin inactive (→ Up) — total emissions `[KEY_RETURN]`.  The bounce scenario
is: press edge at `u0`, then a tick at `uc` past the window re-sampling
the pin inactive — the state reverts to Up with no emission. -/
theorem c3_one_event_per_cycle (s : SysState) (t0 tc te t1 tr u0 uc : Nat) (ts : List Nat)
    (hc : s.connectionState = .CONNECTED) (hw : s.wasConnected = true)
    (he : s.enc.encoderPos = s.lastReportedPos) (hb : s.buttonState = .BUTTON_UP)
    (hdc : buttonDebounceTime < tc - t0) (hdr : buttonDebounceTime < tr - t1)
    (hdu : buttonDebounceTime < uc - u0) :
    ((runTrace s (Ev.btnEdge t0 LOW :: Ev.tick tc true LOW :: Ev.tick te true LOW ::
        ((ts.map fun t => Ev.tick t true LOW) ++
          [Ev.btnEdge t1 HIGH, Ev.tick tr true HIGH]))).2 = [Key.KEY_RETURN] ∧
     (runTrace s (Ev.btnEdge t0 LOW :: Ev.tick tc true LOW :: Ev.tick te true LOW ::
        ((ts.map fun t => Ev.tick t true LOW) ++
          [Ev.btnEdge t1 HIGH, Ev.tick tr true HIGH]))).1.buttonState = .BUTTON_UP ∧
     (runTrace s (Ev.btnEdge t0 LOW :: Ev.tick tc true LOW :: Ev.tick te true LOW ::
        ((ts.map fun t => Ev.tick t true LOW) ++
          [Ev.btnEdge t1 HIGH, Ev.tick tr true HIGH]))).1.buttonEventProcessed = true) ∧
    ((runTrace s [Ev.btnEdge u0 LOW, Ev.tick uc true HIGH]).2 = [] ∧
     (runTrace s [Ev.btnEdge u0 LOW, Ev.tick uc true HIGH]).1.buttonState = .BUTTON_UP) := by
  have h1 := btnEdge_press s t0 hb
  have h2 := tick_confirm_down
    ({ s with buttonState := .BUTTON_DEBOUNCING_DOWN, buttonStateChangeTime := t0 } : SysState)
    tc hc hw he rfl hdc
  have h3 := tick_emit
    ({ s with buttonState := .BUTTON_DOWN, buttonStateChangeTime := t0,
              buttonEventProcessed := false } : SysState)
    te LOW hc hw he rfl rfl
  have h4 := run_idle_ticks ts LOW
    ({ s with buttonState := .BUTTON_DOWN, buttonStateChangeTime := t0,
              buttonEventProcessed := true } : SysState)
    hc hw he (Or.inr (And.intro rfl rfl))
  have h5 := btnEdge_release
    ({ s with buttonState := .BUTTON_DOWN, buttonStateChangeTime := t0,
              buttonEventProcessed := true } : SysState)
    t1 rfl
  have h6 := tick_confirm_up
    ({ s with buttonState := .BUTTON_DEBOUNCING_UP, buttonStateChangeTime := t1,
              buttonEventProcessed := true } : SysState)
    tr hc hw he rfl hdr
  have h7 := btnEdge_press s u0 hb
  have h8 := tick_bounce_up
    ({ s with buttonState := .BUTTON_DEBOUNCING_DOWN, buttonStateChangeTime := u0 } : SysState)
    uc hc hw he rfl hdu
  refine ⟨⟨?_, ?_, ?_⟩, ?_, ?_⟩ <;>
    simp only [runTrace_cons, runTrace_append, runTrace, h1, h2, h3, h4, h5, h6, h7, h8] <;>
    simp

/-- Witness for `c3_one_event_per_cycle`: press at 0, confirm at 51, emit at
60, one extra held tick at 70, release at 100, release-confirm at 151;
bounce press at 200 with inactive re-sample at 251. -/
theorem c3_witness :
    ((runTrace initConnected (Ev.btnEdge 0 LOW :: Ev.tick 51 true LOW :: Ev.tick 60 true LOW ::
        (([70].map fun t => Ev.tick t true LOW) ++
          [Ev.btnEdge 100 HIGH, Ev.tick 151 true HIGH]))).2 = [Key.KEY_RETURN] ∧
     (runTrace initConnected (Ev.btnEdge 0 LOW :: Ev.tick 51 true LOW :: Ev.tick 60 true LOW ::
        (([70].map fun t => Ev.tick t true LOW) ++
          [Ev.btnEdge 100 HIGH, Ev.tick 151 true HIGH]))).1.buttonState = .BUTTON_UP ∧
     (runTrace initConnected (Ev.btnEdge 0 LOW :: Ev.tick 51 true LOW :: Ev.tick 60 true LOW ::
        (([70].map fun t => Ev.tick t true LOW) ++
          [Ev.btnEdge 100 HIGH, Ev.tick 151 true HIGH]))).1.buttonEventProcessed = true) ∧
    ((runTrace initConnected [Ev.btnEdge 200 LOW, Ev.tick 251 true HIGH]).2 = [] ∧
     (runTrace initConnected
        [Ev.btnEdge 200 LOW, Ev.tick 251 true HIGH]).1.buttonState = .BUTTON_UP) :=
  c3_one_event_per_cycle initConnected 0 51 60 100 151 200 251 [70]
    rfl rfl rfl rfl (by decide) (by decide) (by decide)

lemma tick_encoder_emit (s : SysState) (now : Nat) (sw : Bool)
    (hc : s.connectionState = .CONNECTED) (hw : s.wasConnected = true)
    (hgt : s.enc.encoderPos > s.lastReportedPos) (hb : s.buttonState = .BUTTON_UP) :
    step s (.tick now true sw) =
      ({ s with lastReportedPos := s.enc.encoderPos }, [Key.KEY_RIGHT_ARROW]) := by
  have hne : s.enc.encoderPos ≠ s.lastReportedPos := ne_of_gt hgt
  simp only [step, ucs_conn_idle s now hc hw, if_pos hc]
  simp [handleEncoderChange, hne, hgt, handleButtonEvent, hb]

set_option maxRecDepth 4000 in
lemma cw_run (n : Nat) :
    ∀ (s : SysState) (P : Int) (t p : Nat),
      s.enc = { encoderPos := P, lastEncoderEvent := t, old_AB := p } → p < 4 →
      runTrace s (cwTraceFrom p t n) =
        ({ s with enc := { encoderPos := P + n,
                           lastEncoderEvent := t + encoderDebounceTime * n,
                           old_AB := cwNext^[n] p } }, []) := by
  induction n with
  | zero =>
    intro s P t p henc _
    simp [cwTraceFrom, runTrace, henc.symm]
  | succ n ih =>
    intro s P t p henc hp
    have hq : cwNext p < 4 := cwNext_lt p hp
    have hab : abOf (pinAOf (cwNext p)) (pinBOf (cwNext p)) = cwNext p := abOf_pins _ hq
    have hisr : encoderISR s.enc (t + encoderDebounceTime) (pinAOf (cwNext p))
        (pinBOf (cwNext p)) =
        { encoderPos := P + 1, lastEncoderEvent := t + encoderDebounceTime,
          old_AB := cwNext p } := by
      rw [henc]
      rw [encoderISR_accept_cw _ _ _ _ (by simpa using hp) (by simp) (by simpa using hab)]
      simp [hab]
    have hstep : step s (Ev.encEdge (t + encoderDebounceTime) (pinAOf (cwNext p))
        (pinBOf (cwNext p))) =
        ({ s with enc := { encoderPos := P + 1, lastEncoderEvent := t + encoderDebounceTime,
                           old_AB := cwNext p } }, []) := by
      simp [step, hisr]
    have hrest := ih ({ s with
        enc := { encoderPos := P + 1, lastEncoderEvent := t + encoderDebounceTime,
                 old_AB := cwNext p } } : SysState)
      (P + 1) (t + encoderDebounceTime) (cwNext p) rfl hq
    rw [cwTraceFrom, runTrace_cons, hstep]
    simp only [hrest, List.nil_append, List.append_nil]
    congr 2
    congr 1
    all_goals first
    | exact (Function.iterate_succ_apply cwNext n p).symm
    | omega
    | ring

/-- Claim C1 is false as stated: the dispatcher does not emit one key event
per unit of `position − lastReportedPos`; it emits a single key per tick
and jumps `lastReportedPos` all the way to `position`.  Concretely, two
accepted clockwise transitions (at 5 and 10 ms) followed by two connected
dispatcher ticks produce one `KEY_RIGHT_ARROW` emission, not two. -/
theorem c1_counterexample :
    (runEnc enc0 [(5, false, true), (10, true, true)]).encoderPos = 2 ∧
    (runTrace initConnected [Ev.encEdge 5 false true, Ev.encEdge 10 true true,
        Ev.tick 15 true HIGH, Ev.tick 20 true HIGH]).2.count Key.KEY_RIGHT_ARROW = 1 ∧
    (runTrace initConnected [Ev.encEdge 5 false true, Ev.encEdge 10 true true,
        Ev.tick 15 true HIGH, Ev.tick 20 true HIGH]).2.count Key.KEY_RIGHT_ARROW ≠ 2 := by
  decide

/-- Claim C1, amended: while Connected, a dispatcher tick that finds
`position ≠ lastReportedPos` emits exactly one directional key event for
the whole difference and sets `lastReportedPos := position`; hence, for any
`N ≥ 1`, `N` accepted clockwise transitions followed by `N` connected
dispatcher ticks produce exactly one `KEY_RIGHT_ARROW` emission (on the
first tick), after which `lastReportedPos = position = N`. -/
theorem c1_amended (N : Nat) (hN : 1 ≤ N) (ts : List Nat) (hlen : ts.length = N) :
    (runTrace initConnected (cwTraceFrom 0 0 N ++ connTicksAt ts)).2 =
      [Key.KEY_RIGHT_ARROW] ∧
    (runTrace initConnected (cwTraceFrom 0 0 N ++ connTicksAt ts)).1.lastReportedPos =
      (runTrace initConnected (cwTraceFrom 0 0 N ++ connTicksAt ts)).1.enc.encoderPos ∧
    (runTrace initConnected (cwTraceFrom 0 0 N ++ connTicksAt ts)).1.enc.encoderPos =
      (N : Int) := by
  have hcw := cw_run N initConnected 0 0 0 rfl (by norm_num)
  cases ts with
  | nil =>
    rw [List.length_nil] at hlen
    omega
  | cons t ts' =>
    have h1 := tick_encoder_emit
      ({ initConnected with
          enc := { encoderPos := 0 + (N : Int), lastEncoderEvent := 0 + encoderDebounceTime * N,
                   old_AB := cwNext^[N] 0 } } : SysState)
      t HIGH rfl rfl (by show (0 : Int) + (N : Nat) > (0 : Int); omega) rfl
    have h2 := run_idle_ticks ts' HIGH
      ({ initConnected with
          enc := { encoderPos := 0 + (N : Int), lastEncoderEvent := 0 + encoderDebounceTime * N,
                   old_AB := cwNext^[N] 0 },
          lastReportedPos := 0 + (N : Int) } : SysState)
      rfl rfl rfl (Or.inl rfl)
    refine ⟨?_, ?_, ?_⟩ <;>
      simp only [runTrace_append, hcw, connTicksAt, List.map_cons, runTrace_cons, h1, h2] <;>
      simp

/-- Witness for `c1_amended` at `N = 2` with ticks at 100 and 200 ms. -/
theorem c1_amended_witness :
    1 ≤ 2 ∧ ([100, 200] : List Nat).length = 2 ∧
    ((runTrace initConnected (cwTraceFrom 0 0 2 ++ connTicksAt [100, 200])).2 =
        [Key.KEY_RIGHT_ARROW] ∧
     (runTrace initConnected (cwTraceFrom 0 0 2 ++ connTicksAt [100, 200])).1.lastReportedPos =
        (runTrace initConnected (cwTraceFrom 0 0 2 ++ connTicksAt [100, 200])).1.enc.encoderPos ∧
     (runTrace initConnected (cwTraceFrom 0 0 2 ++ connTicksAt [100, 200])).1.enc.encoderPos =
        (2 : Int)) :=
  ⟨by decide, by decide, c1_amended 2 (by decide) [100, 200] (by decide)⟩

lemma ucs_disc (s : SysState) (now : Nat)
    (hc : s.connectionState = .DISCONNECTED ∨ s.connectionState = .CONNECTING)
    (hw : s.wasConnected = false) :
    ((updateConnectionState s false now).connectionState = .DISCONNECTED ∨
     (updateConnectionState s false now).connectionState = .CONNECTING) ∧
    (updateConnectionState s false now).wasConnected = false := by
  have hd : detectLinkChange s false now = s := by
    simp [detectLinkChange, hw]
  unfold updateConnectionState retryClock
  rw [hd]
  rcases hc with hc | hc
  · rw [if_pos hc]
    split_ifs <;> simp [hw, hc]
  · have h1 : ¬ (s.connectionState = ConnectionState.DISCONNECTED) := by
      rw [hc]; simp
    rw [if_neg h1, if_neg (by simp)]
    exact ⟨Or.inr hc, hw⟩

lemma ucs_notconn (s : SysState) (now : Nat)
    (hc : s.connectionState = .DISCONNECTED ∨ s.connectionState = .CONNECTING)
    (hw : s.wasConnected = false) :
    ¬ ((updateConnectionState s false now).connectionState = .CONNECTED) := by
  rcases (ucs_disc s now hc hw).1 with h | h <;> rw [h] <;> simp

lemma tick_confirm_down_notconn (s : SysState) (now : Nat)
    (hc : s.connectionState = .DISCONNECTED ∨ s.connectionState = .CONNECTING)
    (hw : s.wasConnected = false)
    (hb : s.buttonState = .BUTTON_DEBOUNCING_DOWN)
    (hd : buttonDebounceTime < now - s.buttonStateChangeTime) :
    (step s (.tick now false LOW)).2 = [] ∧
    ((step s (.tick now false LOW)).1.connectionState = .DISCONNECTED ∨
     (step s (.tick now false LOW)).1.connectionState = .CONNECTING) ∧
    (step s (.tick now false LOW)).1.wasConnected = false ∧
    (step s (.tick now false LOW)).1.buttonState = .BUTTON_DOWN ∧
    (step s (.tick now false LOW)).1.buttonEventProcessed = false ∧
    (step s (.tick now false LOW)).1.enc = s.enc ∧
    (step s (.tick now false LOW)).1.lastReportedPos = s.lastReportedPos := by
  have hnc := ucs_notconn s now hc hw
  have hdisc := ucs_disc s now hc hw
  have hproj := updateConnectionState_proj s false now
  have hbtn : handleButtonEvent (updateConnectionState s false now) now LOW =
      ({ updateConnectionState s false now with
          buttonState := .BUTTON_DOWN, buttonEventProcessed := false }, []) := by
    have h1 : (updateConnectionState s false now).buttonState = .BUTTON_DEBOUNCING_DOWN :=
      hproj.2.2.1.trans hb
    have h2 : buttonDebounceTime <
        now - (updateConnectionState s false now).buttonStateChangeTime := by
      rw [hproj.2.2.2.1]; exact hd
    simp [handleButtonEvent, h1, h2, LOW]
  have hstep : step s (.tick now false LOW) =
      ({ updateConnectionState s false now with
          buttonState := .BUTTON_DOWN, buttonEventProcessed := false }, []) := by
    simp only [step, if_neg hnc, hbtn, List.nil_append, List.append_nil]
  rw [hstep]
  exact ⟨rfl, hdisc.1, hdisc.2, rfl, rfl, hproj.1, hproj.2.1⟩

lemma tick_down_notconn (s : SysState) (now : Nat) (sw : Bool)
    (hc : s.connectionState = .DISCONNECTED ∨ s.connectionState = .CONNECTING)
    (hw : s.wasConnected = false)
    (hb : s.buttonState = .BUTTON_DOWN) :
    (step s (.tick now false sw)).2 = [] ∧
    ((step s (.tick now false sw)).1.connectionState = .DISCONNECTED ∨
     (step s (.tick now false sw)).1.connectionState = .CONNECTING) ∧
    (step s (.tick now false sw)).1.wasConnected = false ∧
    (step s (.tick now false sw)).1.buttonState = .BUTTON_DOWN ∧
    (step s (.tick now false sw)).1.buttonEventProcessed = s.buttonEventProcessed ∧
    (step s (.tick now false sw)).1.enc = s.enc ∧
    (step s (.tick now false sw)).1.lastReportedPos = s.lastReportedPos := by
  have hnc := ucs_notconn s now hc hw
  have hdisc := ucs_disc s now hc hw
  have hproj := updateConnectionState_proj s false now
  have hbtn : handleButtonEvent (updateConnectionState s false now) now sw =
      (updateConnectionState s false now, []) := by
    have h1 : (updateConnectionState s false now).buttonState = .BUTTON_DOWN :=
      hproj.2.2.1.trans hb
    simp [handleButtonEvent, h1, hnc]
  have hstep : step s (.tick now false sw) = (updateConnectionState s false now, []) := by
    simp only [step, if_neg hnc, hbtn, List.nil_append, List.append_nil]
  rw [hstep]
  exact ⟨rfl, hdisc.1, hdisc.2, hproj.2.2.1.trans hb, hproj.2.2.2.2, hproj.1, hproj.2.1⟩

lemma run_down_notconn (ts : List Nat) :
    ∀ s : SysState,
      (s.connectionState = .DISCONNECTED ∨ s.connectionState = .CONNECTING) →
      s.wasConnected = false → s.buttonState = .BUTTON_DOWN →
      (runTrace s (ts.map fun t => Ev.tick t false LOW)).2 = [] ∧
      ((runTrace s (ts.map fun t => Ev.tick t false LOW)).1.connectionState = .DISCONNECTED ∨
       (runTrace s (ts.map fun t => Ev.tick t false LOW)).1.connectionState = .CONNECTING) ∧
      (runTrace s (ts.map fun t => Ev.tick t false LOW)).1.wasConnected = false ∧
      (runTrace s (ts.map fun t => Ev.tick t false LOW)).1.buttonState = .BUTTON_DOWN ∧
      (runTrace s (ts.map fun t => Ev.tick t false LOW)).1.buttonEventProcessed =
        s.buttonEventProcessed ∧
      (runTrace s (ts.map fun t => Ev.tick t false LOW)).1.enc = s.enc ∧
      (runTrace s (ts.map fun t => Ev.tick t false LOW)).1.lastReportedPos =
        s.lastReportedPos := by
  induction ts with
  | nil =>
    intro s hc hw hb
    exact ⟨rfl, hc, hw, hb, rfl, rfl, rfl⟩
  | cons t ts ih =>
    intro s hc hw hb
    obtain ⟨h2, hc', hw', hb', hp', he', hl'⟩ := tick_down_notconn s t LOW hc hw hb
    obtain ⟨g2, gc, gw, gb, gp, ge, gl⟩ := ih (step s (.tick t false LOW)).1 hc' hw' hb'
    rw [List.map_cons, runTrace_cons]
    refine ⟨?_, gc, gw, gb, gp.trans hp', ge.trans he', gl.trans hl'⟩
    rw [h2, g2]
    rfl

lemma tick_reconnect_emit (s : SysState) (now : Nat) (sw : Bool)
    (_hc : s.connectionState = .DISCONNECTED ∨ s.connectionState = .CONNECTING)
    (hw : s.wasConnected = false)
    (he : s.enc.encoderPos = s.lastReportedPos)
    (hb : s.buttonState = .BUTTON_DOWN) (hp : s.buttonEventProcessed = false) :
    step s (.tick now true sw) =
      ({ s with connectionState := .CONNECTED, wasConnected := true,
                buttonEventProcessed := true }, [Key.KEY_RETURN]) := by
  have hu : updateConnectionState s true now =
      { s with connectionState := .CONNECTED, wasConnected := true } := by
    have hd : detectLinkChange s true now =
        { s with connectionState := .CONNECTED, wasConnected := true } := by
      simp [detectLinkChange, hw]
    unfold updateConnectionState retryClock
    rw [hd]
    simp
  simp [step, hu, handleEncoderChange, handleButtonEvent, hb, hp, he]

lemma tick_confirm_up_notconn (s : SysState) (now : Nat)
    (hc : s.connectionState = .DISCONNECTED ∨ s.connectionState = .CONNECTING)
    (hw : s.wasConnected = false)
    (hb : s.buttonState = .BUTTON_DEBOUNCING_UP)
    (hd : buttonDebounceTime < now - s.buttonStateChangeTime) :
    (step s (.tick now false HIGH)).2 = [] ∧
    (step s (.tick now false HIGH)).1.buttonState = .BUTTON_UP ∧
    (step s (.tick now false HIGH)).1.enc = s.enc ∧
    (step s (.tick now false HIGH)).1.lastReportedPos = s.lastReportedPos ∧
    (step s (.tick now false HIGH)).1.buttonEventProcessed = s.buttonEventProcessed := by
  have hnc := ucs_notconn s now hc hw
  have hproj := updateConnectionState_proj s false now
  have hbtn : handleButtonEvent (updateConnectionState s false now) now HIGH =
      ({ updateConnectionState s false now with buttonState := .BUTTON_UP }, []) := by
    have h1 : (updateConnectionState s false now).buttonState = .BUTTON_DEBOUNCING_UP :=
      hproj.2.2.1.trans hb
    have h2 : buttonDebounceTime <
        now - (updateConnectionState s false now).buttonStateChangeTime := by
      rw [hproj.2.2.2.1]; exact hd
    simp [handleButtonEvent, h1, h2, HIGH]
  have hstep : step s (.tick now false HIGH) =
      ({ updateConnectionState s false now with buttonState := .BUTTON_UP }, []) := by
    simp only [step, if_neg hnc, hbtn, List.nil_append, List.append_nil]
  rw [hstep]
  exact ⟨rfl, rfl, hproj.1, hproj.2.1, hproj.2.2.2.2⟩

lemma tick_up_noemit (s : SysState) (now : Nat) (l sw : Bool)
    (hb : s.buttonState = .BUTTON_UP) (he : s.enc.encoderPos = s.lastReportedPos) :
    (step s (.tick now l sw)).2 = [] ∧
    (step s (.tick now l sw)).1.buttonState = .BUTTON_UP ∧
    (step s (.tick now l sw)).1.enc = s.enc ∧
    (step s (.tick now l sw)).1.lastReportedPos = s.lastReportedPos ∧
    (step s (.tick now l sw)).1.buttonEventProcessed = s.buttonEventProcessed := by
  have hproj := updateConnectionState_proj s l now
  have hr1 : (if (updateConnectionState s l now).connectionState = .CONNECTED then
      handleEncoderChange (updateConnectionState s l now)
      else (updateConnectionState s l now, [])) = (updateConnectionState s l now, []) := by
    by_cases hcc : (updateConnectionState s l now).connectionState = .CONNECTED
    · rw [if_pos hcc, handleEncoderChange_idle _ (by rw [hproj.1, hproj.2.1]; exact he)]
    · rw [if_neg hcc]
  have hbtn : handleButtonEvent (updateConnectionState s l now) now sw =
      (updateConnectionState s l now, []) := by
    have h1 : (updateConnectionState s l now).buttonState = .BUTTON_UP :=
      hproj.2.2.1.trans hb
    simp [handleButtonEvent, h1]
  simp only [step, hr1, hbtn]
  exact ⟨rfl, hproj.2.2.1.trans hb, hproj.1, hproj.2.1, hproj.2.2.2.2⟩

lemma run_up_noemit (us : List Nat) :
    ∀ s : SysState, s.buttonState = .BUTTON_UP → s.enc.encoderPos = s.lastReportedPos →
      (runTrace s (connTicksAt us)).2 = [] ∧
      (runTrace s (connTicksAt us)).1.buttonState = .BUTTON_UP := by
  induction us with
  | nil => intro s hb _; exact ⟨rfl, hb⟩
  | cons u us ih =>
    intro s hb he
    obtain ⟨h2, hb', he', hl', _⟩ := tick_up_noemit s u true HIGH hb he
    obtain ⟨g2, gb⟩ := ih (step s (.tick u true HIGH)).1 hb' (by rw [he', hl']; exact he)
    rw [connTicksAt, List.map_cons, runTrace_cons]
    refine ⟨?_, gb⟩
    rw [h2]
    simpa [connTicksAt] using g2

/-- Claim C10: a Down confirmation while the link is not Connected is not
discarded: `buttonEventProcessed` is set `false` regardless of link state;
no key is emitted on the not-Connected ticks that follow; the bound key is
emitted on the first subsequent tick at which the link is Connected while
the button is still Down (and the pending flag is then cleared).  If
instead the release is confirmed (state back to Up) before any such tick,
that press produces no key event at all, even after the link returns.
Scenario: state `s` is disconnected with the button in `DebouncingDown`;
tick at `tc` (past the window, pin active, link down) confirms Down; ticks
at `ts` with the link down; then either a tick at `tg` with the link up
(emits), or release edge at `t1`, confirming tick at `tr` (past the
window, pin inactive, link down), then connected ticks at `us` (no
emission ever). -/
theorem c10_pending_press_across_link (s : SysState) (tc tg t1 tr : Nat)
    (ts us : List Nat)
    (hcd : s.connectionState = .DISCONNECTED) (hw : s.wasConnected = false)
    (he : s.enc.encoderPos = s.lastReportedPos)
    (hb : s.buttonState = .BUTTON_DEBOUNCING_DOWN)
    (hd : buttonDebounceTime < tc - s.buttonStateChangeTime)
    (hdr : buttonDebounceTime < tr - t1) :
    ((runTrace s (Ev.tick tc false LOW :: (ts.map fun t => Ev.tick t false LOW))).2 = [] ∧
     (runTrace s (Ev.tick tc false LOW ::
        (ts.map fun t => Ev.tick t false LOW))).1.buttonEventProcessed = false ∧
     (runTrace s (Ev.tick tc false LOW ::
        (ts.map fun t => Ev.tick t false LOW))).1.buttonState = .BUTTON_DOWN ∧
     (runTrace s ((Ev.tick tc false LOW :: (ts.map fun t => Ev.tick t false LOW)) ++
        [Ev.tick tg true LOW])).2 = [Key.KEY_RETURN] ∧
     (runTrace s ((Ev.tick tc false LOW :: (ts.map fun t => Ev.tick t false LOW)) ++
        [Ev.tick tg true LOW])).1.buttonEventProcessed = true) ∧
    ((runTrace s ((Ev.tick tc false LOW :: (ts.map fun t => Ev.tick t false LOW)) ++
        (Ev.btnEdge t1 HIGH :: Ev.tick tr false HIGH :: connTicksAt us))).2 = [] ∧
     (runTrace s ((Ev.tick tc false LOW :: (ts.map fun t => Ev.tick t false LOW)) ++
        (Ev.btnEdge t1 HIGH :: Ev.tick tr false HIGH :: connTicksAt us))).1.buttonState =
       .BUTTON_UP) := by
  have hcd' : s.connectionState = .DISCONNECTED ∨ s.connectionState = .CONNECTING :=
    Or.inl hcd
  obtain ⟨a2, ac, aw, ab, ap, ae, al⟩ := tick_confirm_down_notconn s tc hcd' hw hb hd
  obtain ⟨q2, qc, qw, qb, qp, qe, ql⟩ :=
    run_down_notconn ts (step s (.tick tc false LOW)).1 ac aw ab
  have hpre1 : (runTrace s (Ev.tick tc false LOW ::
      (ts.map fun t => Ev.tick t false LOW))).1 =
      (runTrace (step s (.tick tc false LOW)).1 (ts.map fun t => Ev.tick t false LOW)).1 := by
    rw [runTrace_cons]
  have hpre2 : (runTrace s (Ev.tick tc false LOW ::
      (ts.map fun t => Ev.tick t false LOW))).2 = [] := by
    rw [runTrace_cons]
    simp [a2, q2]
  have hQp : (runTrace (step s (.tick tc false LOW)).1
      (ts.map fun t => Ev.tick t false LOW)).1.buttonEventProcessed = false := qp.trans ap
  have hQe : (runTrace (step s (.tick tc false LOW)).1
      (ts.map fun t => Ev.tick t false LOW)).1.enc.encoderPos =
      (runTrace (step s (.tick tc false LOW)).1
        (ts.map fun t => Ev.tick t false LOW)).1.lastReportedPos := by
    rw [qe, ql, ae, al]; exact he
  have hg := tick_reconnect_emit
    (runTrace (step s (.tick tc false LOW)).1 (ts.map fun t => Ev.tick t false LOW)).1
    tg LOW qc qw hQe qb hQp
  have hrel := btnEdge_release
    (runTrace (step s (.tick tc false LOW)).1 (ts.map fun t => Ev.tick t false LOW)).1
    t1 qb
  obtain ⟨r2, rb, re, rl, rp⟩ := tick_confirm_up_notconn
    ({ (runTrace (step s (.tick tc false LOW)).1
        (ts.map fun t => Ev.tick t false LOW)).1 with
        buttonState := .BUTTON_DEBOUNCING_UP, buttonStateChangeTime := t1 } : SysState)
    tr qc qw rfl hdr
  obtain ⟨u2, ub⟩ := run_up_noemit us
    (step ({ (runTrace (step s (.tick tc false LOW)).1
        (ts.map fun t => Ev.tick t false LOW)).1 with
        buttonState := .BUTTON_DEBOUNCING_UP, buttonStateChangeTime := t1 } : SysState)
      (.tick tr false HIGH)).1
    rb (by rw [re, rl]; exact hQe)
  refine ⟨⟨hpre2, ?_, ?_, ?_, ?_⟩, ?_, ?_⟩
  · rw [hpre1]; exact hQp
  · rw [hpre1]; exact qb
  · rw [List.cons_append, runTrace_cons, runTrace_append]
    rw [a2, q2]
    rw [runTrace_cons, hg]
    simp [runTrace]
  · rw [List.cons_append, runTrace_cons, runTrace_append]
    rw [runTrace_cons, hg]
    simp [runTrace]
  · rw [List.cons_append, runTrace_cons, runTrace_append]
    rw [a2, q2]
    rw [runTrace_cons, hrel]
    rw [runTrace_cons]
    simp [r2, u2]
  · rw [List.cons_append, runTrace_cons, runTrace_append]
    rw [runTrace_cons, hrel]
    rw [runTrace_cons]
    simpa using ub

/-- Witness for `c10_pending_press_across_link`: disconnected state with the
press being debounced from time 0; confirm at 51, link-down tick at 60,
link back at 70 (emits); alternatively release at 80, release-confirm at
131, connected ticks at 140 (never emits). -/
theorem c10_witness :
    ((runTrace ({ initConnected with
          connectionState := .DISCONNECTED,
          wasConnected := false,
          buttonState := .BUTTON_DEBOUNCING_DOWN } : SysState)
        (Ev.tick 51 false LOW :: ([60].map fun t => Ev.tick t false LOW))).2 = [] ∧
     (runTrace ({ initConnected with
          connectionState := .DISCONNECTED,
          wasConnected := false,
          buttonState := .BUTTON_DEBOUNCING_DOWN } : SysState)
        (Ev.tick 51 false LOW ::
          ([60].map fun t => Ev.tick t false LOW))).1.buttonEventProcessed = false ∧
     (runTrace ({ initConnected with
          connectionState := .DISCONNECTED,
          wasConnected := false,
          buttonState := .BUTTON_DEBOUNCING_DOWN } : SysState)
        (Ev.tick 51 false LOW ::
          ([60].map fun t => Ev.tick t false LOW))).1.buttonState = .BUTTON_DOWN ∧
     (runTrace ({ initConnected with
          connectionState := .DISCONNECTED,
          wasConnected := false,
          buttonState := .BUTTON_DEBOUNCING_DOWN } : SysState)
        ((Ev.tick 51 false LOW :: ([60].map fun t => Ev.tick t false LOW)) ++
          [Ev.tick 70 true LOW])).2 = [Key.KEY_RETURN] ∧
     (runTrace ({ initConnected with
          connectionState := .DISCONNECTED,
          wasConnected := false,
          buttonState := .BUTTON_DEBOUNCING_DOWN } : SysState)
        ((Ev.tick 51 false LOW :: ([60].map fun t => Ev.tick t false LOW)) ++
          [Ev.tick 70 true LOW])).1.buttonEventProcessed = true) ∧
    ((runTrace ({ initConnected with
          connectionState := .DISCONNECTED,
          wasConnected := false,
          buttonState := .BUTTON_DEBOUNCING_DOWN } : SysState)
        ((Ev.tick 51 false LOW :: ([60].map fun t => Ev.tick t false LOW)) ++
          (Ev.btnEdge 80 HIGH :: Ev.tick 131 false HIGH :: connTicksAt [140]))).2 = [] ∧
     (runTrace ({ initConnected with
          connectionState := .DISCONNECTED,
          wasConnected := false,
          buttonState := .BUTTON_DEBOUNCING_DOWN } : SysState)
        ((Ev.tick 51 false LOW :: ([60].map fun t => Ev.tick t false LOW)) ++
          (Ev.btnEdge 80 HIGH :: Ev.tick 131 false HIGH ::
            connTicksAt [140]))).1.buttonState = .BUTTON_UP) :=
  c10_pending_press_across_link
    ({ initConnected with
        connectionState := .DISCONNECTED,
        wasConnected := false,
        buttonState := .BUTTON_DEBOUNCING_DOWN } : SysState)
    51 70 80 131 [60] [140] rfl rfl rfl rfl (by decide) (by decide)

end EncoderControl
